import Mathlib

/-!
Verification development for the Kochi Metro induction-planning backend.

The definitions below are a shallow embedding of the Python services in
`backend/app/services` (`optimization.py`, `feature_extraction.py`,
`planning_service.py`) together with the configuration constants of
`backend/app/config.py`.  Python floats are modelled by `ℚ` (all the
quantities the claims touch are exact decimals), datetimes by rationals
measured in hours from the plan date's midnight, dates by integers
(day numbers), and fallible code by `Except`/`Option`.  The CP-SAT solve of
Stage 1 is modelled by quantifying over candidate 0/1 assignments that
satisfy the constraints posted on the model: a solution returned by the
solver is exactly such an assignment, and the infeasible outcome is
modelled by `none`, in which case the code takes the fallback path.
-/

namespace KochiMetro

/-- The three-way Stage 1 decision, the string set {"active","standby","ibl"}
of the source. -/
inductive Decision
  | active
  | standby
  | ibl
  deriving DecidableEq, Repr

/-- Plan lifecycle status, the string set used by `planning_service.py`. -/
inductive PlanStatus
  | draft
  | running
  | completed
  | amended
  | finalized
  | failed
  deriving DecidableEq, Repr

/-- Feature record per train, from `feature_extraction.py` (`TrainFeatures`).
Only the fields consumed by the claims' code paths are carried.
`fit_expiry_buffer_hours` is `Option ℚ` with `none` standing for the Python
`float('inf')` initial value. -/
structure TrainFeatures where
  fit_ok : Bool
  fit_expiry_buffer_hours : Option ℚ
  wo_blocking : Bool
  critical_wo_count : Nat
  brand_target_h : ℚ
  brand_rolling_deficit_h : ℚ
  mileage_dev : ℚ
  expected_km_if_active : ℚ
  needs_clean : Bool
  clean_type : String
  current_bay : Option String
  exit_time_cost_hint_sec : ℚ
  deriving DecidableEq, Repr

/-- config.py: ACTIVE_MIN. -/
def ACTIVE_MIN : Nat := 7

/-- config.py: ACTIVE_MAX. -/
def ACTIVE_MAX : Nat := 9

/-- config.py: STANDBY_MIN. -/
def STANDBY_MIN : Nat := 1

/-- One train's three CP-SAT booleans `xA`, `xS`, `xM` of `_stage1_assignment`. -/
structure Stage1Vars where
  xA : Bool
  xS : Bool
  xM : Bool
  deriving DecidableEq, Repr

/-- Constraint `xA + xS + xM == 1` posted per train. -/
def exactlyOne (v : Stage1Vars) : Bool :=
  v.xA.toNat + v.xS.toNat + v.xM.toNat == 1

/-- Conjunction of every hard constraint `_stage1_assignment` posts on the
CP-SAT model (lines 133-150): the per-train exactly-one constraint, the
active-count bounds, the fitness gate `xA <= fit_ok`, and the work-order
gate `xA <= not wo_blocking`.  A solver solution is precisely an assignment
on which this evaluates to `true`. -/
def stage1FeasibleB (features : List (String × TrainFeatures))
    (sol : String → Stage1Vars) : Bool :=
  features.all (fun p => exactlyOne (sol p.1)) &&
  decide (ACTIVE_MIN ≤ features.countP (fun p => (sol p.1).xA)) &&
  decide (features.countP (fun p => (sol p.1).xA) ≤ ACTIVE_MAX) &&
  features.all (fun p => (sol p.1).xA.toNat ≤ if p.2.fit_ok then 1 else 0) &&
  features.all (fun p => (sol p.1).xA.toNat ≤ if p.2.wo_blocking then 0 else 1)

/-- Decision extraction from a solved assignment (lines 209-225 of
`optimization.py`): `xA_val > 0.5` → active, else `xS_val > 0.5` → standby,
else ibl. -/
def extractDecision (v : Stage1Vars) : Decision :=
  if v.xA then Decision.active else if v.xS then Decision.standby else Decision.ibl

/-- One entry of the `decisions` list built by Stage 1. -/
structure DecisionItem where
  train_id : String
  decision : Decision
  bay_id : Option String
  turnout_rank : Option Nat
  km_target : ℚ
  deriving DecidableEq, Repr

/-- The decision list the solver path of `_stage1_assignment` builds from a
solved model (lines 206-234): standby keeps the current bay, active and ibl
leave the bay to later stages, `km_target` is the expected km only when
active. -/
def stage1SolverItems (features : List (String × TrainFeatures))
    (sol : String → Stage1Vars) : List DecisionItem :=
  features.map fun p =>
    let d := extractDecision (sol p.1)
    { train_id := p.1
      decision := d
      bay_id := if d = Decision.standby then p.2.current_bay else none
      turnout_rank := none
      km_target := if d = Decision.active then p.2.expected_km_if_active else 0 }

/-- The per-train rule of `_stage1_fallback_assignment` (lines 325-336):
active while fit, unblocked and under ACTIVE_MAX; else ibl when blocked or
needing cleaning; else standby. -/
def fallbackDecision (f : TrainFeatures) (activeCount : Nat) : Decision :=
  if f.fit_ok && !f.wo_blocking && decide (activeCount < ACTIVE_MAX) then
    Decision.active
  else if f.wo_blocking || f.needs_clean then Decision.ibl
  else Decision.standby

/-- The fallback loop over `features.items()` carrying the running active
count. -/
def stage1FallbackGo : List (String × TrainFeatures) → Nat → List DecisionItem
  | [], _ => []
  | p :: rest, ac =>
    let d := fallbackDecision p.2 ac
    let ac2 := if d = Decision.active then ac + 1 else ac
    { train_id := p.1
      decision := d
      bay_id := if d = Decision.standby then p.2.current_bay else none
      turnout_rank := none
      km_target := if d = Decision.active then p.2.expected_km_if_active else 0 }
      :: stage1FallbackGo rest ac2

/-- `_stage1_fallback_assignment`'s decision list. -/
def stage1FallbackItems (features : List (String × TrainFeatures)) : List DecisionItem :=
  stage1FallbackGo features 0

/-- The single alert the fallback path records (line 350). -/
def fallbackAlert : String := "Optimization failed, used fallback assignment"

/-- `_generate_alerts` (lines 291-315): fleet-size breach alerts plus
defensive alerts for risky active trains.  The exact interpolated count is
kept out of the message text; the claims only consume the list's emptiness
and the fallback message, never these strings. -/
def generateAlerts (decisions : List DecisionItem)
    (features : List (String × TrainFeatures)) : List String :=
  let ac := decisions.countP (fun d => decide (d.decision = Decision.active))
  let sc := decisions.countP (fun d => decide (d.decision = Decision.standby))
  (if ac < ACTIVE_MIN then ["active trains below minimum"] else []) ++
  (if ac > ACTIVE_MAX then ["active trains above maximum"] else []) ++
  (if sc < STANDBY_MIN then ["standby trains below minimum"] else []) ++
  decisions.flatMap fun d =>
    if d.decision = Decision.active then
      match features.lookup d.train_id with
      | some f =>
        (if f.critical_wo_count > 0 then ["active train has critical WOs"] else []) ++
        (if !f.fit_ok then ["active train has fitness issues"] else [])
      | none => []
    else []

/-- The dictionary `_stage1_assignment` returns. -/
structure Stage1Result where
  decisions : List DecisionItem
  alerts : List String
  deriving DecidableEq, Repr

/-- Stage 1 top level: on a solver solution (OPTIMAL/FEASIBLE) the decisions
are extracted from the assignment; otherwise the deterministic fallback is
used (lines 201-243). -/
def stage1Assignment (features : List (String × TrainFeatures)) :
    Option (String → Stage1Vars) → Stage1Result
  | some sol =>
    { decisions := stage1SolverItems features sol
      alerts := generateAlerts (stage1SolverItems features sol) features }
  | none =>
    { decisions := stage1FallbackItems features
      alerts := [fallbackAlert] }

/-- Count of active decisions in a decision list. -/
def countActive (decisions : List DecisionItem) : Nat :=
  decisions.countP (fun d => decide (d.decision = Decision.active))

/-- An active stabling bay row (`StablingBay` with `is_active = true`), as
consumed by Stages 2 and 3. -/
structure Bay where
  bay_id : String
  access_time_min : ℚ
  deriving DecidableEq, Repr

/-- Default used for the (unreachable under a non-empty bay list) out-of-range
index access `bays[i % len(bays)]`. -/
def defaultBay : Bay := { bay_id := "", access_time_min := 0 }

/-- The part of a train decision Stage 2 consumes: its id and cleaning need. -/
structure IblJob where
  train_id : String
  needs_clean : Bool
  clean_type : String
  deriving DecidableEq, Repr

/-- One IBL gantt entry of `_stage2_ibl_scheduling`.  Times are minutes from
the 21:00 night-start anchor of the plan date. -/
structure GanttEntry where
  train_id : String
  bay_id : String
  from_min : Nat
  to_min : Nat
  job_type : String
  deriving DecidableEq, Repr

/-- The scheduling loop of `_stage2_ibl_scheduling` (lines 375-397): bay
round-robin by index, duration 2h when cleaning is needed else 1h, and the
global clock advances past each job's end plus a 15-minute buffer. -/
def stage2Go (bays : List Bay) : Nat → Nat → List IblJob → List GanttEntry
  | _, _, [] => []
  | i, cur, j :: rest =>
    let bay := bays.getD (i % bays.length) defaultBay
    let dur := if j.needs_clean then 120 else 60
    { train_id := j.train_id
      bay_id := bay.bay_id
      from_min := cur
      to_min := cur + dur
      job_type := if j.needs_clean then j.clean_type else "maintenance" }
      :: stage2Go bays (i + 1) (cur + dur + 15) rest

/-- `_stage2_ibl_scheduling` over the IBL subset of the Stage 1 decisions. -/
def stage2IblScheduling (bays : List Bay) (jobs : List IblJob) : List GanttEntry :=
  stage2Go bays 0 0 jobs

/-- One turnout entry of `_stage3_stabling_turnout`. -/
structure TurnoutEntry where
  train_id : String
  bay_id : String
  turnout_rank : Nat
  eta_exit_s : ℚ
  deriving DecidableEq, Repr

/-- `_stage3_stabling_turnout` (lines 415-428): bay round-robin by position,
`turnout_rank = i + 1`, exit ETA from the bay's access time.  The final
`sorted(..., key=turnout_rank)` of the source is the identity because the
ranks are produced already strictly increasing
(`stage3_ranks_strict_mono` below), so it is not re-applied here. -/
def stage3StablingTurnout (bays : List Bay) (activeTrains : List String) :
    List TurnoutEntry :=
  activeTrains.enum.map fun p =>
    let bay := bays.getD (p.1 % bays.length) defaultBay
    { train_id := p.2
      bay_id := bay.bay_id
      turnout_rank := p.1 + 1
      eta_exit_s := bay.access_time_min * 60 }

/-- A fitness certificate already gathered by the status filter
`status IN ("valid", "expiring")` of `_extract_fitness_features`.  Validity
bounds are hours from the plan date's midnight. -/
structure Certificate where
  dept : String
  valid_from : ℚ
  valid_to : ℚ
  deriving DecidableEq, Repr

/-- Service window start, 06:00 as hours from midnight of the plan date. -/
def serviceStartH : ℚ := 6

/-- Service window end, 22:30 as hours from midnight of the plan date. -/
def serviceEndH : ℚ := 45 / 2

/-- The coverage test of line 148: the certificate's validity interval fully
covers the service window. -/
def certCovers (c : Certificate) : Bool :=
  decide (c.valid_from ≤ serviceStartH) && decide (serviceEndH ≤ c.valid_to)

/-- The per-certificate buffer `max(0, (valid_to - service_end) hours)` of
lines 150-151. -/
def certBuffer (c : Certificate) : ℚ :=
  max 0 (c.valid_to - serviceEndH)

/-- `min` against a possibly-infinite accumulator; `none` is `float('inf')`. -/
def minInf (acc : Option ℚ) (x : ℚ) : Option ℚ :=
  match acc with
  | none => some x
  | some y => some (min y x)

/-- The certificate loop of `_extract_fitness_features` (lines 146-156):
accumulate the minimum buffer over compliant certificates and break at the
first non-covering one, reporting `all_valid = false`. -/
def fitnessLoop : List Certificate → Option ℚ → Option ℚ × Bool
  | [], acc => (acc, true)
  | c :: rest, acc =>
    if certCovers c then fitnessLoop rest (minInf acc (certBuffer c))
    else (acc, false)

/-- `_extract_fitness_features` result `(fit_ok, fit_expiry_buffer_hours)`:
with no certificate the function returns early leaving the initial values
`(fit_ok := false set explicitly, buffer := inf)`; otherwise the loop's
verdict and accumulated buffer are written back (lines 134-159). -/
def extractFitness (certs : List Certificate) : Bool × Option ℚ :=
  if certs.isEmpty then (false, none)
  else
    let r := fitnessLoop certs none
    (r.2, r.1)

/-- Branding campaign row (`BrandingCampaign` model), fields consumed by
`_extract_branding_features`. -/
structure BrandingCampaign where
  wrap_id : String
  weekly_target_hours : ℚ
  rolling_window_days : Int
  deriving DecidableEq, Repr

/-- Branding exposure log row; `log_date` is an absolute day number. -/
structure BrandingExposureLog where
  train_id : String
  log_date : Int
  exposure_hours : ℚ
  deriving DecidableEq, Repr

/-- The daily target and rolling deficit computed by
`_extract_branding_features` (lines 228-244), faithful to the source
including its `window_days = campaign.weekly_target_hours /
campaign.weekly_target_hours` line (the source's own comment says this
should be `campaign.rolling_window_days`); Python's `int()` truncation of
the always-1.0 quotient is `Int.floor` here.  Requires
`weekly_target_hours ≠ 0` to mirror the Python run (division by zero would
raise there). -/
def brandingFeatures (campaign : BrandingCampaign)
    (logs : List BrandingExposureLog) (train_id : String) (plan_date : Int) :
    ℚ × ℚ :=
  let target := campaign.weekly_target_hours / 7
  let window_days : ℚ := campaign.weekly_target_hours / campaign.weekly_target_hours
  let window_start : Int := plan_date - ⌊window_days⌋
  let actual :=
    ((logs.filter fun l =>
        decide (l.train_id = train_id) && decide (window_start ≤ l.log_date) &&
        decide (l.log_date < plan_date)).map
      (fun l => l.exposure_hours)).sum
  let expected := target * window_days
  (target, max 0 (expected - actual))

/-- Modelled from the spec: the rolling deficit as §4.1 of the spec words it,
"max(0, target×window_days − exposure_hours logged over the trailing
window_days, default 7) ending the day before plan_date", with the daily
target `weekly_target_hours / 7`.  This is the comparison point for the
refinement check of the branding claim, not code of the repository. -/
def brandingDeficitSpec (weekly_target_hours : ℚ) (window_days : Nat)
    (logs : List BrandingExposureLog) (train_id : String) (plan_date : Int) : ℚ :=
  let target := weekly_target_hours / 7
  let window_start : Int := plan_date - (window_days : Int)
  let actual :=
    ((logs.filter fun l =>
        decide (l.train_id = train_id) && decide (window_start ≤ l.log_date) &&
        decide (l.log_date < plan_date)).map
      (fun l => l.exposure_hours)).sum
  max 0 (target * (window_days : ℚ) - actual)

/-- One `InductionPlanItem` row.  `override_reason` stands for the
`explain_json["override"]["reason"]` entry merged by `apply_override`; the
wall-clock `applied_at` companion is not modelled (real time). -/
structure PlanItem where
  train_id : String
  decision : Decision
  bay_id : Option String
  turnout_rank : Option Int
  km_target : Option ℚ
  notes : Option String
  override_reason : Option String
  deriving DecidableEq, Repr

/-- One `Override` audit row added by `apply_override`. -/
structure OverrideRecord where
  train_id : String
  reason : String
  deriving DecidableEq, Repr

/-- An `InductionPlan` with its owned rows: lifecycle status, items, audit
records and the stored weights (`weights_json`). -/
structure Plan where
  status : PlanStatus
  items : List PlanItem
  overrides : List OverrideRecord
  weights : List (String × ℚ)
  deriving DecidableEq, Repr

/-- The override payload dictionary: `none` means the key is absent; for
`bay_id` and `notes` the inner `Option` is the (possibly `None`) value.
Bay ids are taken as already well-formed UUID strings (the source's
`uuid.UUID` parse failure path is not exercised by any claim). -/
structure OverridePayload where
  decision : Option String
  bay_id : Option (Option String)
  turnout_rank : Option Int
  notes : Option (Option String)
  reason : Option String
  deriving DecidableEq, Repr

/-- Python's `str.lower()`, written as a structurally recursive character
map (the same characters `String.map Char.toLower` produces) so that
proofs can evaluate it on literals. -/
def lowerStr (s : String) : String := ⟨s.data.map Char.toLower⟩

/-- Parse a lowercased decision string against the set
{"active","standby","ibl"} checked on line 234 of `planning_service.py`. -/
def decisionOfString (s : String) : Option Decision :=
  if s = "active" then some Decision.active
  else if s = "standby" then some Decision.standby
  else if s = "ibl" then some Decision.ibl
  else none

/-- Replace the first item matching the train id (the source mutates the one
ORM object returned by the `LIMIT 1` query). -/
def updateFirstItem : List PlanItem → String → PlanItem → List PlanItem
  | [], _, _ => []
  | it :: rest, tid, repl =>
    if it.train_id = tid then repl :: rest
    else it :: updateFirstItem rest tid repl

/-- `apply_override` (planning_service.py lines 210-298).  Raises on a
finalized plan, on a missing item, on an invalid decision value and on a
missing (or falsy, i.e. empty) reason; otherwise applies the partial update
to the first matching item, records the reason in the explanation and the
audit list, and moves a `completed` plan to `amended`.  Errors model the
raised `ValueError` before any commit, so an error leaves the plan as it
was (the session is rolled back). -/
def applyOverride (plan : Plan) (train_id : String) (payload : OverridePayload) :
    Except String Plan :=
  if plan.status = PlanStatus.finalized then
    Except.error "Cannot override a finalised plan"
  else
    match plan.items.find? (fun it => decide (it.train_id = train_id)) with
    | none => Except.error "Train not found in plan"
    | some item0 =>
      let step1 : Except String PlanItem :=
        match payload.decision with
        | some d0 =>
          if d0 = "" then Except.ok item0
          else
            match decisionOfString (lowerStr d0) with
            | some dec => Except.ok { item0 with decision := dec }
            | none => Except.error "Unsupported decision"
        | none => Except.ok item0
      match step1 with
      | Except.error e => Except.error e
      | Except.ok item1 =>
        let item2 :=
          match payload.bay_id with
          | some b => { item1 with bay_id := b }
          | none => item1
        let item3 :=
          match payload.turnout_rank with
          | some r => { item2 with turnout_rank := some r }
          | none => item2
        let item4 :=
          match payload.notes with
          | some n => { item3 with notes := n }
          | none => item3
        match payload.reason with
        | none => Except.error "Override reason is required"
        | some reason =>
          if reason = "" then Except.error "Override reason is required"
          else
            let item5 := { item4 with override_reason := some reason }
            let newStatus :=
              if plan.status = PlanStatus.completed then PlanStatus.amended
              else plan.status
            Except.ok
              { plan with
                status := newStatus
                items := updateFirstItem plan.items train_id item5
                overrides := plan.overrides ++ [{ train_id := train_id, reason := reason }] }

/-- The plan as persisted after an `apply_override` call: the updated plan on
success, the untouched plan on a raised validation error (rollback). -/
def overrideStateAfter (plan : Plan) (train_id : String)
    (payload : OverridePayload) : Plan :=
  match applyOverride plan train_id payload with
  | Except.ok p2 => p2
  | Except.error _ => plan

/-- `finalize_plan` (lines 450-462): only a `completed` plan may be
finalized; every other status raises. -/
def finalizePlan (plan : Plan) : Except String Plan :=
  if plan.status = PlanStatus.completed then
    Except.ok { plan with status := PlanStatus.finalized }
  else Except.error "Plan must be completed before finalization"

/-- The plan as persisted after a `finalize_plan` call. -/
def finalizeStateAfter (plan : Plan) : Plan :=
  match finalizePlan plan with
  | Except.ok p2 => p2
  | Except.error _ => plan

/-- One parsed force directive of a what-if request: `none` fields are
absent keys.  `_parse_force` itself is referenced by `run_what_if` but
absent from the source tree; its output shape is read off the directive
accesses on lines 380-390 (`.get("decision")`, `"bay_id" in`,
`.get("turnout_rank")`, `.get("notes")`). -/
structure WhatIfDirective where
  decision : Option Decision
  bay_id : Option (Option String)
  turnout_rank : Option Int
  notes : Option String
  deriving DecidableEq, Repr

/-- The per-item scenario update of the `run_what_if` loop (lines 377-400):
force directives are applied first, then a banned train is put to standby
whatever the forced decision was. -/
def applyWhatIf (force : String → Option WhatIfDirective)
    (banned : String → Bool) (item : PlanItem) : PlanItem :=
  let s1 :=
    match force item.train_id with
    | some dir =>
      let a := match dir.decision with
        | some d => { item with decision := d }
        | none => item
      let b := match dir.bay_id with
        | some bv => { a with bay_id := bv }
        | none => a
      let c := match dir.turnout_rank with
        | some r => { b with turnout_rank := some r }
        | none => b
      match dir.notes with
      | some n => { c with notes := some n }
      | none => c
    | none => item
  if banned item.train_id then
    if s1.decision = Decision.standby then s1
    else { s1 with decision := Decision.standby }
  else s1

/-- Modelled from the spec: `_summarize_items` is referenced by
`run_what_if` but missing from the source tree; per §4.5 the what-if engine
"recomputes a scenario summary (counts per decision)". -/
def summarizeItems (items : List PlanItem) : Nat × Nat × Nat :=
  (items.countP (fun it => decide (it.decision = Decision.active)),
   items.countP (fun it => decide (it.decision = Decision.standby)),
   items.countP (fun it => decide (it.decision = Decision.ibl)))

/-- Python-dict style weight update: replace the key in place or append it. -/
def updateWeight : List (String × ℚ) → String → ℚ → List (String × ℚ)
  | [], k, v => [(k, v)]
  | (k0, v0) :: rest, k, v =>
    if k0 = k then (k0, v) :: rest else (k0, v0) :: updateWeight rest k v

/-- The adjusted-weights map of lines 405-411: every delta is added to the
stored weight (0 when absent).  The cosmetic `round(..., 6)` of the source
is not modelled (weights here are exact rationals). -/
def adjustWeights (weights : List (String × ℚ)) :
    List (String × ℚ) → List (String × ℚ)
  | [] => weights
  | (k, d) :: rest =>
    adjustWeights (updateWeight weights k ((weights.lookup k).getD 0 + d)) rest

/-- Persisted planning state visible to the claims: plans keyed by id (each
owning its items, weights and audit rows) and the `BayOccupancy` rows. -/
structure ServiceDB where
  plans : List (Nat × Plan)
  occupancies : List GanttEntry
  deriving DecidableEq, Repr

/-- The scenario bundle `run_what_if` returns. -/
structure WhatIfResult where
  base_summary : Nat × Nat × Nat
  scenario_summary : Nat × Nat × Nat
  adjusted_weights : List (String × ℚ)
  items : List PlanItem
  deriving DecidableEq, Repr

/-- What `get_plan` reads back for a plan: status, items, weights, and the
occupancy rows of the date window (all of them in this single-date model). -/
def getPlanView (db : ServiceDB) (plan_id : Nat) :
    Option (PlanStatus × List PlanItem × List (String × ℚ) × List GanttEntry) :=
  (db.plans.lookup plan_id).map fun p => (p.status, p.items, p.weights, db.occupancies)

/-- `run_what_if` (lines 356-448) as a state-passing operation: it reads the
plan, rebuilds every item through the force/ban scenario loop, summarizes
both item lists and adjusts the weights, and performs no write — the
returned state is the input state.  The missing `_parse_force` /
`_parse_ban` helpers are modelled by taking their outputs (the directive
map and the ban set) as arguments; per the spec they are pure request
parsers. -/
def runWhatIf (db : ServiceDB) (plan_id : Nat)
    (force : String → Option WhatIfDirective) (banned : String → Bool)
    (weightDeltas : List (String × ℚ)) : ServiceDB × Except String WhatIfResult :=
  match db.plans.lookup plan_id with
  | none => (db, Except.error "Plan not found")
  | some plan =>
    let baseItems := plan.items
    let scenItems := baseItems.map (applyWhatIf force banned)
    (db, Except.ok
      { base_summary := summarizeItems baseItems
        scenario_summary := summarizeItems scenItems
        adjusted_weights := adjustWeights plan.weights weightDeltas
        items := scenItems })

/-! Helper lemmas. -/

lemma zip_self_map {α β : Type} (l : List α) (g : α → β) :
    l.zip (l.map g) = l.map fun a => (a, g a) := by
  induction l with
  | nil => rfl
  | cons a t ih => simp [List.zip_cons_cons, ih]

lemma extractDecision_active_iff (v : Stage1Vars) :
    decide (extractDecision v = Decision.active) = v.xA := by
  cases hA : v.xA <;> cases hS : v.xS <;> simp [extractDecision, hA, hS]

lemma stage1FeasibleB_parts {features : List (String × TrainFeatures)}
    {sol : String → Stage1Vars} (h : stage1FeasibleB features sol = true) :
    (∀ p ∈ features, exactlyOne (sol p.1) = true) ∧
    ACTIVE_MIN ≤ features.countP (fun p => (sol p.1).xA) ∧
    features.countP (fun p => (sol p.1).xA) ≤ ACTIVE_MAX ∧
    (∀ p ∈ features, (sol p.1).xA.toNat ≤ if p.2.fit_ok then 1 else 0) ∧
    (∀ p ∈ features, (sol p.1).xA.toNat ≤ if p.2.wo_blocking then 0 else 1) := by
  simp only [stage1FeasibleB, Bool.and_eq_true, List.all_eq_true,
    decide_eq_true_eq] at h
  exact ⟨h.1.1.1.1, h.1.1.1.2, h.1.1.2, h.1.2, h.2⟩

lemma fallbackGo_no_unfit_active :
    ∀ (features : List (String × TrainFeatures)) (ac : Nat),
      ∀ pr ∈ features.zip (stage1FallbackGo features ac),
        pr.1.2.fit_ok = false ∨ pr.1.2.wo_blocking = true →
        pr.2.decision ≠ Decision.active := by
  intro features
  induction features with
  | nil => intro ac pr hpr; simp [stage1FallbackGo] at hpr
  | cons p rest ih =>
    intro ac pr hpr hbad
    rw [stage1FallbackGo, List.zip_cons_cons] at hpr
    rcases List.mem_cons.mp hpr with hhead | htail
    · subst hhead
      simp only at hbad ⊢
      intro hact
      have hfd : fallbackDecision p.2 ac = Decision.active := hact
      unfold fallbackDecision at hfd
      have hcond : (p.2.fit_ok && !p.2.wo_blocking && decide (ac < ACTIVE_MAX)) = false := by
        rcases hbad with hfit | hwo
        · simp [hfit]
        · simp [hwo]
      rw [hcond] at hfd
      simp only [Bool.false_eq_true, if_false] at hfd
      split at hfd <;> simp_all
    · exact ih _ pr htail hbad

/-- C1: in both the CP-SAT solver path (any assignment satisfying the posted
constraints) and the fallback path of Stage 1, no train whose features
have `fit_ok = false` or `wo_blocking = true` receives the decision
`active` in the returned decision list. -/
theorem stage1_no_unfit_active :
    ∀ (features : List (String × TrainFeatures)) (sol : String → Stage1Vars),
      (stage1FeasibleB features sol = true →
        ∀ pr ∈ features.zip (stage1Assignment features (some sol)).decisions,
          pr.1.2.fit_ok = false ∨ pr.1.2.wo_blocking = true →
          pr.2.decision ≠ Decision.active) ∧
      (∀ pr ∈ features.zip (stage1Assignment features none).decisions,
        pr.1.2.fit_ok = false ∨ pr.1.2.wo_blocking = true →
        pr.2.decision ≠ Decision.active) := by
  intro features sol
  constructor
  · intro hfeas pr hpr hbad
    obtain ⟨-, -, -, hfit, hwo⟩ := stage1FeasibleB_parts hfeas
    simp only [stage1Assignment, stage1SolverItems] at hpr
    rw [zip_self_map] at hpr
    obtain ⟨p, hp, hpr2⟩ := List.mem_map.mp hpr
    subst hpr2
    simp only at hbad ⊢
    intro hact
    have hxa : (sol p.1).xA = true := by
      have := extractDecision_active_iff (sol p.1)
      rw [hact] at this
      simpa using this.symm
    rcases hbad with hbadf | hbadw
    · have := hfit p hp
      rw [hbadf, hxa] at this
      simp at this
    · have := hwo p hp
      rw [hbadw, hxa] at this
      simp at this
  · intro pr hpr hbad
    exact fallbackGo_no_unfit_active features 0 pr hpr hbad

/-- Fit train with no issues, used as witness input. -/
def fitTF : TrainFeatures :=
  { fit_ok := true
    fit_expiry_buffer_hours := some 100
    wo_blocking := false
    critical_wo_count := 0
    brand_target_h := 0
    brand_rolling_deficit_h := 0
    mileage_dev := 0
    expected_km_if_active := 0
    needs_clean := false
    clean_type := "none"
    current_bay := none
    exit_time_cost_hint_sec := 0 }

/-- Unfit, work-order-blocked train, used as witness input. -/
def unfitTF : TrainFeatures :=
  { fitTF with fit_ok := false, wo_blocking := true }

/-- Witness feature map: seven eligible trains and one ineligible one. -/
def wfeats : List (String × TrainFeatures) :=
  [("T1", fitTF), ("T2", fitTF), ("T3", fitTF), ("T4", fitTF),
   ("T5", fitTF), ("T6", fitTF), ("T7", fitTF), ("T8", unfitTF)]

/-- Witness solver assignment: the seven eligible trains active, the
ineligible one standby. -/
def wsol : String → Stage1Vars := fun tid =>
  if tid = "T8" then { xA := false, xS := true, xM := false }
  else { xA := true, xS := false, xM := false }

/-- The decision item the solver path produces for the ineligible witness
train. -/
def wItem8 : DecisionItem :=
  { train_id := "T8"
    decision := Decision.standby
    bay_id := none
    turnout_rank := none
    km_target := 0 }

/-- Witness for C1: on the concrete feasible witness instance, the
ineligible train's solver-path decision is not active. -/
theorem stage1_no_unfit_active_witness : wItem8.decision ≠ Decision.active :=
  (stage1_no_unfit_active wfeats wsol).1 (by decide)
    (("T8", unfitTF), wItem8) (by decide) (Or.inl (by decide))

/-- C2: for any assignment satisfying the Stage 1 constraints, the active
count lies within [ACTIVE_MIN, ACTIVE_MAX]; when the solver returns no
feasible solution, the result is the deterministic fallback decision list
and the degraded-optimization alert is recorded in the result. -/
theorem stage1_active_count_in_bounds :
    ∀ (features : List (String × TrainFeatures)) (sol : String → Stage1Vars),
      (stage1FeasibleB features sol = true →
        ACTIVE_MIN ≤ countActive (stage1Assignment features (some sol)).decisions ∧
        countActive (stage1Assignment features (some sol)).decisions ≤ ACTIVE_MAX) ∧
      ((stage1Assignment features none).decisions = stage1FallbackItems features ∧
        fallbackAlert ∈ (stage1Assignment features none).alerts) := by
  intro features sol
  constructor
  · intro hfeas
    obtain ⟨-, hmin, hmax, -, -⟩ := stage1FeasibleB_parts hfeas
    have hcount : countActive (stage1Assignment features (some sol)).decisions
        = features.countP (fun p => (sol p.1).xA) := by
      simp only [stage1Assignment, countActive, stage1SolverItems]
      rw [List.countP_map]
      congr 1
      funext p
      simp only [Function.comp]
      exact extractDecision_active_iff (sol p.1)
    rw [hcount]
    exact ⟨hmin, hmax⟩
  · exact ⟨rfl, by simp [stage1Assignment]⟩

/-- Witness for C2: the concrete witness instance is feasible and its
solver-path active count sits inside the configured bounds. -/
theorem stage1_active_count_in_bounds_witness :
    ACTIVE_MIN ≤ countActive (stage1Assignment wfeats (some wsol)).decisions ∧
    countActive (stage1Assignment wfeats (some wsol)).decisions ≤ ACTIVE_MAX :=
  (stage1_active_count_in_bounds wfeats wsol).1 (by decide)

lemma stage2Go_map_train (bays : List Bay) :
    ∀ (jobs : List IblJob) (i cur : Nat),
      (stage2Go bays i cur jobs).map (fun e => e.train_id)
        = jobs.map (fun j => j.train_id) := by
  intro jobs
  induction jobs with
  | nil => intro i cur; rfl
  | cons j rest ih =>
    intro i cur
    rw [stage2Go]
    simp only [List.map_cons]
    rw [ih]

lemma stage2Go_bounds (bays : List Bay) :
    ∀ (jobs : List IblJob) (i cur : Nat),
      (∀ e ∈ stage2Go bays i cur jobs, cur ≤ e.from_min ∧ e.from_min < e.to_min) ∧
      List.Pairwise (fun e1 e2 => e1.to_min ≤ e2.from_min)
        (stage2Go bays i cur jobs) := by
  intro jobs
  induction jobs with
  | nil => intro i cur; simp [stage2Go]
  | cons j rest ih =>
    intro i cur
    rw [stage2Go]
    set dur := if j.needs_clean then 120 else 60 with hdur
    have hdurpos : 0 < dur := by rw [hdur]; split <;> omega
    obtain ⟨ihb, ihp⟩ := ih (i + 1) (cur + dur + 15)
    constructor
    · intro e he
      rcases List.mem_cons.mp he with he | he
      · subst he
        refine ⟨Nat.le_refl _, ?_⟩
        show cur < cur + dur
        omega
      · obtain ⟨hb1, hb2⟩ := ihb e he
        exact ⟨by omega, hb2⟩
    · rw [List.pairwise_cons]
      refine ⟨fun e he => ?_, ihp⟩
      have := (ihb e he).1
      simp only
      omega

/-- C6: for every yard (IBL) vehicle list and non-empty active-bay list, no
two occupancy windows of the Stage 2 schedule on the same bay overlap (for
any ordered pair, one window's end is at or before the other's start), and
every yard vehicle receives a bay and a window (the schedule covers exactly
the yard vehicles, in order). -/
theorem stage2_no_bay_overlap :
    ∀ (bays : List Bay) (jobs : List IblJob),
      bays ≠ [] →
      List.Pairwise (fun e1 e2 => e1.bay_id = e2.bay_id →
          e1.to_min ≤ e2.from_min ∨ e2.to_min ≤ e1.from_min)
        (stage2IblScheduling bays jobs) ∧
      (stage2IblScheduling bays jobs).map (fun e => e.train_id)
        = jobs.map (fun j => j.train_id) := by
  intro bays jobs _
  constructor
  · have h := (stage2Go_bounds bays jobs 0 0).2
    exact h.imp fun hle => fun _ => Or.inl hle
  · exact stage2Go_map_train bays jobs 0 0

/-- Witness bay list with a single active bay. -/
def wBays : List Bay := [{ bay_id := "B1", access_time_min := 3 }]

/-- Witness yard jobs: two vehicles both needing deep cleaning. -/
def wJobs : List IblJob :=
  [{ train_id := "T1", needs_clean := true, clean_type := "deep" },
   { train_id := "T2", needs_clean := true, clean_type := "deep" }]

/-- Witness for C6: two deep-cleaning jobs on one bay get disjoint windows
and both vehicles are scheduled. -/
theorem stage2_no_bay_overlap_witness :
    List.Pairwise (fun e1 e2 => e1.bay_id = e2.bay_id →
        e1.to_min ≤ e2.from_min ∨ e2.to_min ≤ e1.from_min)
      (stage2IblScheduling wBays wJobs) ∧
    (stage2IblScheduling wBays wJobs).map (fun e => e.train_id)
      = wJobs.map (fun j => j.train_id) :=
  stage2_no_bay_overlap wBays wJobs (by decide)

/-- Counterexample for C5 as stated: with two active vehicles and a single
active bay, Stage 3 produces the dense rank sequence but assigns the same
bay twice, so the no-duplicate-bay part of the claim fails. -/
theorem stage3_duplicate_bay_cex :
    ((stage3StablingTurnout wBays ["T1", "T2"]).map (fun e => e.turnout_rank)
        = List.range' 1 2) ∧
    ¬ ((stage3StablingTurnout wBays ["T1", "T2"]).map (fun e => e.bay_id)).Nodup := by
  decide

/-- Strict monotonicity of the produced ranks; this justifies dropping the
source's final no-op `sorted(..., key=turnout_rank)`. -/
theorem stage3_ranks_strict_mono (bays : List Bay) (activeTrains : List String) :
    List.Pairwise (fun e1 e2 => e1.turnout_rank < e2.turnout_rank)
      (stage3StablingTurnout bays activeTrains) := by
  have h0 : List.Pairwise (· < ·) (activeTrains.enum.map Prod.fst) := by
    rw [List.enum_map_fst]
    exact List.pairwise_lt_range _
  have h : List.Pairwise (fun p q : Nat × String => p.1 < q.1) activeTrains.enum :=
    List.pairwise_map.mp h0
  unfold stage3StablingTurnout
  rw [List.pairwise_map]
  exact h.imp fun hpq => Nat.succ_lt_succ hpq

/-- C5 amended: Stage 3's ranks are always the dense sequence 1..N; the
round-robin bay assignment is duplicate-free provided the active vehicles
do not outnumber the distinct active bays. -/
theorem stage3_ranks_dense_bays_nodup :
    ∀ (bays : List Bay) (activeTrains : List String),
      bays ≠ [] →
      ((stage3StablingTurnout bays activeTrains).map (fun e => e.turnout_rank)
          = List.range' 1 activeTrains.length) ∧
      (activeTrains.length ≤ bays.length →
        (bays.map (fun b => b.bay_id)).Nodup →
        ((stage3StablingTurnout bays activeTrains).map (fun e => e.bay_id)).Nodup) := by
  intro bays ts _
  constructor
  · have h1 : (stage3StablingTurnout bays ts).map (fun e => e.turnout_rank)
        = (ts.enum.map Prod.fst).map (fun i => i + 1) := by
      simp only [stage3StablingTurnout, List.map_map]
      rfl
    rw [h1, List.enum_map_fst, List.range'_eq_map_range]
    exact List.map_congr_left fun a _ => Nat.add_comm a 1
  · intro hlen hnd
    have h2 : (stage3StablingTurnout bays ts).map (fun e => e.bay_id)
        = (ts.enum.map Prod.fst).map
            (fun i => (bays.getD (i % bays.length) defaultBay).bay_id) := by
      simp only [stage3StablingTurnout, List.map_map]
      rfl
    rw [h2, List.enum_map_fst]
    apply List.Nodup.map_on ?_ (List.nodup_range _)
    intro x hx y hy hxy
    rw [List.mem_range] at hx hy
    have hx2 : x < bays.length := lt_of_lt_of_le hx hlen
    have hy2 : y < bays.length := lt_of_lt_of_le hy hlen
    rw [Nat.mod_eq_of_lt hx2, Nat.mod_eq_of_lt hy2,
      List.getD_eq_getElem bays defaultBay hx2,
      List.getD_eq_getElem bays defaultBay hy2] at hxy
    have hmx : x < (bays.map (fun b => b.bay_id)).length := by simpa using hx2
    have hmy : y < (bays.map (fun b => b.bay_id)).length := by simpa using hy2
    have hmap : (bays.map (fun b => b.bay_id))[x] = (bays.map (fun b => b.bay_id))[y] := by
      simpa [List.getElem_map] using hxy
    exact hnd.getElem_inj_iff.mp hmap

/-- Witness bay list with two distinct active bays. -/
def wBays2 : List Bay :=
  [{ bay_id := "B1", access_time_min := 3 }, { bay_id := "B2", access_time_min := 4 }]

/-- Witness for the amended C5: two active vehicles over two distinct bays
get the rank sequence [1, 2] and two distinct bays. -/
theorem stage3_ranks_dense_bays_nodup_witness :
    ((stage3StablingTurnout wBays2 ["T1", "T2"]).map (fun e => e.turnout_rank)
        = List.range' 1 2) ∧
    ((stage3StablingTurnout wBays2 ["T1", "T2"]).map (fun e => e.bay_id)).Nodup := by
  have h := stage3_ranks_dense_bays_nodup wBays2 ["T1", "T2"] (by decide)
  exact ⟨h.1, h.2 (by decide) (by decide)⟩

/-- The spec's example campaign: weekly_target_hours = 140, rolling window
7 days. -/
def campaignC3 : BrandingCampaign :=
  { wrap_id := "W1", weekly_target_hours := 140, rolling_window_days := 7 }

/-- C3: the code disagrees with the claim.  `_extract_branding_features`
computes `window_days = weekly_target_hours / weekly_target_hours` (always
1; its own comment says it should be `rolling_window_days`), so the spec's
example — weekly target 140h, zero exposure for 7 days — yields a rolling
deficit of 20, not the claimed 20 × 7 = 140.  The daily-target half of the
claim does hold (140 / 7 = 20). -/
theorem branding_deficit_window_bug :
    brandingFeatures campaignC3 [] "T1" 10 = (20, 20) ∧
    brandingDeficitSpec 140 7 [] "T1" 10 = 140 ∧
    (brandingFeatures campaignC3 [] "T1" 10).2 ≠ brandingDeficitSpec 140 7 [] "T1" 10 := by
  refine ⟨?_, ?_, ?_⟩ <;>
    norm_num [brandingFeatures, brandingDeficitSpec, campaignC3]

lemma fitnessLoop_valid_iff :
    ∀ (certs : List Certificate) (acc : Option ℚ),
      (fitnessLoop certs acc).2 = true ↔ ∀ c ∈ certs, certCovers c = true := by
  intro certs
  induction certs with
  | nil => intro acc; simp [fitnessLoop]
  | cons c rest ih =>
    intro acc
    rw [fitnessLoop]
    by_cases hc : certCovers c = true
    · rw [if_pos hc, ih]
      simp [hc]
    · rw [if_neg hc]
      simp only [List.mem_cons]
      constructor
      · intro h; exact absurd h (by simp)
      · intro h; exact absurd (h c (Or.inl rfl)) hc

lemma fitnessLoop_buffer_eq :
    ∀ (certs : List Certificate) (acc : Option ℚ),
      (fitnessLoop certs acc).1
        = ((certs.takeWhile certCovers).map certBuffer).foldl minInf acc := by
  intro certs
  induction certs with
  | nil => intro acc; simp [fitnessLoop]
  | cons c rest ih =>
    intro acc
    rw [fitnessLoop]
    by_cases hc : certCovers c = true
    · rw [if_pos hc, ih, List.takeWhile_cons_of_pos hc, List.map_cons, List.foldl_cons]
    · rw [if_neg hc, List.takeWhile_cons_of_neg hc]
      rfl

lemma foldl_minInf_some (bs : List ℚ) :
    ∀ a : ℚ, bs.foldl minInf (some a) = some (bs.foldl min a) := by
  induction bs with
  | nil => intro a; rfl
  | cons b rest ih => intro a; rw [List.foldl_cons, List.foldl_cons]; exact ih (min a b)

lemma foldl_minInf_none (bs : List ℚ) : bs.foldl minInf none = bs.min? := by
  cases bs with
  | nil => rfl
  | cons b rest =>
    rw [List.foldl_cons]
    show rest.foldl minInf (some b) = (b :: rest).min?
    rw [foldl_minInf_some, List.min?]

/-- A certificate whose validity interval starts after the 06:00 service
start, hence does not cover the service window. -/
def certLate : Certificate := { dept := "RS", valid_from := 7, valid_to := 50 }

/-- Counterexample for C4 as stated: a vehicle with exactly one certificate
that fails to cover the service window is marked unfit, but its fitness
buffer is the untouched `float('inf')` initial value — not 0 as the claim
says. -/
theorem fitness_buffer_noncompliant_cex :
    (extractFitness [certLate]).1 = false ∧
    (extractFitness [certLate]).2 = none ∧
    (extractFitness [certLate]).2 ≠ some 0 := by
  have h2 : (extractFitness [certLate]).2 = none := by
    norm_num [extractFitness, fitnessLoop, certLate, certCovers,
      serviceStartH, serviceEndH]
  refine ⟨?_, h2, ?_⟩
  · norm_num [extractFitness, fitnessLoop, certLate, certCovers,
      serviceStartH, serviceEndH]
  · rw [h2]
    exact fun h => Option.noConfusion h

/-- C4 amended: a vehicle is fit iff it has at least one gathered
certificate and every one of them covers the service window; the buffer is
∞ (`none`) with no certificate, and otherwise is the minimum clamped buffer
over the certificates up to the first non-compliant one — the minimum over
all compliant certificates when the vehicle is fit, and the loop's partial
minimum (∞ if the very first certificate already fails) when it is not;
it is not reset to 0 on non-compliance. -/
theorem extractFitness_amended :
    ∀ certs : List Certificate,
      ((extractFitness certs).1 = true ↔
        certs ≠ [] ∧ ∀ c ∈ certs, certCovers c = true) ∧
      (extractFitness certs).2
        = (if certs.isEmpty then none
           else ((certs.takeWhile certCovers).map certBuffer).min?) := by
  intro certs
  cases hcs : certs with
  | nil => simp [extractFitness]
  | cons c rest =>
    constructor
    · show (fitnessLoop (c :: rest) none).2 = true ↔ _
      rw [fitnessLoop_valid_iff]
      simp
    · show (fitnessLoop (c :: rest) none).1 = _
      rw [fitnessLoop_buffer_eq, foldl_minInf_none]
      rfl

/-- Witness for the amended C4: a fit vehicle with two covering
certificates gets the smaller clamped buffer, and an unfit configuration is
recognized. -/
theorem extractFitness_amended_witness :
    (extractFitness [{ dept := "RS", valid_from := 0, valid_to := 30 },
                     { dept := "SIG", valid_from := 1, valid_to := 25 }]).1 = true ∧
    (extractFitness [{ dept := "RS", valid_from := 0, valid_to := 30 },
                     { dept := "SIG", valid_from := 1, valid_to := 25 }]).2
      = some (5 / 2) := by
  have h := extractFitness_amended
    [{ dept := "RS", valid_from := 0, valid_to := 30 },
     { dept := "SIG", valid_from := 1, valid_to := 25 }]
  constructor
  · apply h.1.mpr
    refine ⟨by simp, ?_⟩
    intro c hc
    simp only [List.mem_cons, List.not_mem_nil, or_false] at hc
    rcases hc with rfl | rfl <;>
      norm_num [certCovers, serviceStartH, serviceEndH]
  · rw [h.2]
    norm_num [List.takeWhile_cons, certCovers, certBuffer, serviceStartH,
      serviceEndH, List.min?, List.takeWhile_nil]

/-- A plan item for the override and what-if fixtures. -/
def wPlanItem : PlanItem :=
  { train_id := "T1"
    decision := Decision.standby
    bay_id := none
    turnout_rank := none
    km_target := none
    notes := none
    override_reason := none }

/-- A well-formed override payload: valid decision, reason supplied. -/
def wPayload : OverridePayload :=
  { decision := some "active"
    bay_id := none
    turnout_rank := none
    notes := none
    reason := some "operator call" }

/-- A one-item plan in the given lifecycle status. -/
def planWith (st : PlanStatus) : Plan :=
  { status := st, items := [wPlanItem], overrides := [], weights := [] }

/-- Counterexample for C7 as stated: `apply_override` succeeds on a plan in
status `draft`, which is not in {completed, amended} — the code only
rejects `finalized`. -/
theorem apply_override_draft_cex :
    (applyOverride (planWith PlanStatus.draft) "T1" wPayload).isOk = true ∧
    (planWith PlanStatus.draft).status ≠ PlanStatus.completed ∧
    (planWith PlanStatus.draft).status ≠ PlanStatus.amended := by
  refine ⟨?_, by decide, by decide⟩
  decide

/-- C7 amended: `apply_override` is rejected exactly on a finalized plan
(leaving the plan, its items included, unchanged); on any non-finalized
plan it succeeds whenever the item exists, the requested decision (if any)
is valid and a non-empty reason is supplied; and a successful override on a
`completed` plan moves it to `amended`. -/
theorem apply_override_lifecycle :
    ∀ (plan : Plan) (tid : String) (payload : OverridePayload),
      (plan.status = PlanStatus.finalized →
        applyOverride plan tid payload
          = Except.error "Cannot override a finalised plan" ∧
        overrideStateAfter plan tid payload = plan) ∧
      (plan.status ≠ PlanStatus.finalized →
        (plan.items.find? (fun i2 => decide (i2.train_id = tid))).isSome = true →
        (∀ d, payload.decision = some d →
          d = "" ∨ (decisionOfString (lowerStr d)).isSome = true) →
        (∃ r, payload.reason = some r ∧ r ≠ "") →
        (applyOverride plan tid payload).isOk = true) ∧
      (∀ plan2, applyOverride plan tid payload = Except.ok plan2 →
        plan.status = PlanStatus.completed → plan2.status = PlanStatus.amended) := by
  intro plan tid payload
  refine ⟨?_, ?_, ?_⟩
  · intro hfin
    have herr : applyOverride plan tid payload
        = Except.error "Cannot override a finalised plan" := by
      unfold applyOverride
      rw [if_pos hfin]
    exact ⟨herr, by rw [overrideStateAfter, herr]⟩
  · intro hfin hfind hdec hreason
    obtain ⟨r, hr, hrne⟩ := hreason
    obtain ⟨it, hit⟩ := Option.isSome_iff_exists.mp hfind
    unfold applyOverride
    rw [if_neg hfin]
    simp only [hit]
    cases hd : payload.decision with
    | none =>
      rw [hr]
      simp [hrne, Except.isOk, Except.toBool]
    | some d0 =>
      by_cases hde : d0 = ""
      · subst hde
        rw [hr]
        simp [hrne, Except.isOk, Except.toBool]
      · rcases hdec d0 hd with hempty | hvalid
        · exact absurd hempty hde
        · obtain ⟨dec, hdec2⟩ := Option.isSome_iff_exists.mp hvalid
          rw [hr]
          simp [hde, hdec2, hrne, Except.isOk, Except.toBool]
  · intro plan2 hok hcomp
    unfold applyOverride at hok
    repeat' split at hok
    all_goals
      first
        | exact Except.noConfusion hok
        | (rw [Except.ok.injEq] at hok; subst hok; simp_all)

/-- Witness for the amended C7: the override is rejected on a finalized
plan and succeeds on a draft plan. -/
theorem apply_override_lifecycle_witness :
    applyOverride (planWith PlanStatus.finalized) "T1" wPayload
      = Except.error "Cannot override a finalised plan" ∧
    (applyOverride (planWith PlanStatus.draft) "T1" wPayload).isOk = true := by
  constructor
  · exact ((apply_override_lifecycle (planWith PlanStatus.finalized) "T1" wPayload).1 rfl).1
  · exact (apply_override_lifecycle (planWith PlanStatus.draft) "T1" wPayload).2.1
      (by decide) (by decide)
      (by intro d hd; rw [show wPayload.decision = some "active" from rfl] at hd;
          cases hd; right; decide)
      ⟨"operator call", rfl, by decide⟩

/-- A plan in status amended (after an override on a completed plan). -/
def planAmended : Plan :=
  { status := PlanStatus.amended, items := [], overrides := [], weights := [] }

/-- A completed plan ready for finalization. -/
def planCompleted : Plan :=
  { status := PlanStatus.completed, items := [], overrides := [], weights := [] }

/-- Counterexample for C8 as stated: `finalize_plan` rejects a plan in
status `amended`, although the claim says amended plans may be finalized —
the code's guard is `status != "completed"`. -/
theorem finalize_amended_cex :
    (finalizePlan planAmended).isOk = false ∧
    planAmended.status = PlanStatus.amended := by
  constructor <;> decide

/-- C8 amended: `finalize_plan` succeeds exactly on a `completed` plan,
setting `finalized`; on every other status (including `amended`) it fails
and the persisted status is unchanged. -/
theorem finalize_plan_lifecycle :
    ∀ plan : Plan,
      (plan.status = PlanStatus.completed →
        finalizePlan plan = Except.ok { plan with status := PlanStatus.finalized }) ∧
      (plan.status ≠ PlanStatus.completed →
        (finalizePlan plan).isOk = false ∧ finalizeStateAfter plan = plan) := by
  intro plan
  constructor
  · intro h
    simp [finalizePlan, h]
  · intro h
    constructor
    · simp [finalizePlan, h, Except.isOk, Except.toBool]
    · simp [finalizeStateAfter, finalizePlan, h]

/-- Witness for the amended C8: the completed fixture finalizes, the
amended fixture is rejected with its status left in place. -/
theorem finalize_plan_lifecycle_witness :
    finalizePlan planCompleted
      = Except.ok { planCompleted with status := PlanStatus.finalized } ∧
    (finalizePlan planAmended).isOk = false ∧
    finalizeStateAfter planAmended = planAmended :=
  ⟨(finalize_plan_lifecycle planCompleted).1 rfl,
   (finalize_plan_lifecycle planAmended).2 (by decide)⟩

/-- C9: `run_what_if` writes nothing — the persisted state after the call
equals the state before it, so the get-plan view of every plan (status,
items, weights, occupancies) is identical before and after. -/
theorem run_what_if_no_write :
    ∀ (db : ServiceDB) (plan_id : Nat) (force : String → Option WhatIfDirective)
      (banned : String → Bool) (weightDeltas : List (String × ℚ)) (pid2 : Nat),
      (runWhatIf db plan_id force banned weightDeltas).1 = db ∧
      getPlanView (runWhatIf db plan_id force banned weightDeltas).1 pid2
        = getPlanView db pid2 := by
  intro db plan_id force banned wd pid2
  have h : (runWhatIf db plan_id force banned wd).1 = db := by
    unfold runWhatIf
    cases db.plans.lookup plan_id <;> rfl
  exact ⟨h, by rw [h]⟩

/-- C10: in the what-if scenario loop, the ban list beats the force map —
a train both forced and banned ends at decision standby. -/
theorem run_what_if_ban_beats_force :
    ∀ (db : ServiceDB) (plan_id : Nat) (force : String → Option WhatIfDirective)
      (banned : String → Bool) (weightDeltas : List (String × ℚ))
      (plan : Plan) (res : WhatIfResult),
      db.plans.lookup plan_id = some plan →
      (runWhatIf db plan_id force banned weightDeltas).2 = Except.ok res →
      ∀ pr ∈ plan.items.zip res.items,
        (force pr.1.train_id).isSome = true →
        banned pr.1.train_id = true →
        pr.2.decision = Decision.standby := by
  intro db pid force banned wd plan res hlook hok pr hpr hforce hban
  unfold runWhatIf at hok
  rw [hlook] at hok
  simp only [Except.ok.injEq] at hok
  have hres : res.items = plan.items.map (applyWhatIf force banned) := by
    rw [← hok]
  rw [hres, zip_self_map] at hpr
  obtain ⟨it, hit, heq⟩ := List.mem_map.mp hpr
  rcases heq.symm with rfl
  show (applyWhatIf force banned it).decision = Decision.standby
  have hban2 : banned it.train_id = true := hban
  unfold applyWhatIf
  simp only [hban2, if_true]
  split
  · assumption
  · rfl

/-- A force directive requesting decision active. -/
def wDirective : WhatIfDirective :=
  { decision := some Decision.active
    bay_id := none
    turnout_rank := none
    notes := none }

/-- Witness force map: forces T1 to active. -/
def wForce : String → Option WhatIfDirective := fun tid =>
  if tid = "T1" then some wDirective else none

/-- Witness ban set: bans T1. -/
def wBan : String → Bool := fun tid => decide (tid = "T1")

/-- A completed one-item plan for the what-if witness. -/
def wWIPlan : Plan :=
  { status := PlanStatus.completed, items := [wPlanItem], overrides := [], weights := [] }

/-- Witness persisted state holding the what-if plan under id 1. -/
def wDB : ServiceDB := { plans := [(1, wWIPlan)], occupancies := [] }

/-- The what-if result the witness run produces. -/
def wRes : WhatIfResult :=
  { base_summary := summarizeItems [wPlanItem]
    scenario_summary := summarizeItems [applyWhatIf wForce wBan wPlanItem]
    adjusted_weights := []
    items := [applyWhatIf wForce wBan wPlanItem] }

/-- Witness for C10: train T1 is both forced to active and banned; its
scenario decision is standby. -/
theorem run_what_if_ban_beats_force_witness :
    (applyWhatIf wForce wBan wPlanItem).decision = Decision.standby :=
  run_what_if_ban_beats_force wDB 1 wForce wBan [] wWIPlan wRes rfl rfl
    (wPlanItem, applyWhatIf wForce wBan wPlanItem) (by decide) (by decide) (by decide)

end KochiMetro
